import Mathlib

/-!
Verification of the opym OPM/LLSM image-processing pipeline.

This development shallowly embeds the pure computational content of the
repository (ROI handling, de-interlacing, deskew geometry, MIP computation,
channel-splitting validation) as Lean definitions and proves the frozen
specification claims about them.

Conventions used throughout:
* numpy/torch arrays carry their shape as a list of naturals; pixel payloads
  are abstracted to integer or rational values, or omitted entirely when no
  claim refers to them (noted per definition).
* Python exceptions are modelled with an explicit error type; functions that
  can raise return an Except value.
* External, nondeterministic inputs (the phase-correlation shift, the
  cudaDeconv subprocess result, filesystem existence checks) are passed as
  explicit oracle parameters.
-/

namespace Opym

/-- Errors raised by the embedded Python code. -/
inductive PyErr where
  | valueError (msg : String)
  | runtimeError
  | indexError
  | fileNotFoundError
  | calledProcessError (returncode : Int)
deriving DecidableEq, Repr

/-- Model of a Python slice object with optional integer bounds
(slice(start, stop), step omitted: every ROI slice in the repo has step None). -/
structure PySlice where
  start : Option Int
  stop : Option Int
deriving DecidableEq, Repr

/-- An ROI is a pair of row/column slices, as in the repository. -/
abbrev Roi := PySlice × PySlice

/-- The 4-tuple serialized form (y1, y2, x1, x2). -/
abbrev Tup4 := Int × Int × Int × Int

/-- Embedding of roi_utils._roi_to_tuple: converts (slice(y1, y2), slice(x1, x2))
to (y1, y2, x1, x2), substituting 0 for a missing start and -1 for a missing stop. -/
def roi_to_tuple (roi : Roi) : Tup4 :=
  (roi.1.start.getD 0, roi.1.stop.getD (-1), roi.2.start.getD 0, roi.2.stop.getD (-1))

/-- Embedding of roi_utils._tuple_to_roi: converts (y1, y2, x1, x2) to
(slice(y1, y2), slice(x1, x2)). -/
def tuple_to_roi (t : Tup4) : Roi :=
  (⟨some t.1, some t.2.1⟩, ⟨some t.2.2.1, some t.2.2.2⟩)

/-- An ROI whose two slices both have integer (non-None) start and stop. -/
def roiIntBounds (roi : Roi) : Prop :=
  roi.1.start.isSome ∧ roi.1.stop.isSome ∧ roi.2.start.isSome ∧ roi.2.stop.isSome

instance (roi : Roi) : Decidable (roiIntBounds roi) := by
  unfold roiIntBounds; infer_instance

/-- C7: ROI serialization round-trips: tuple-of-roi-of-tuple is the identity on
integer 4-tuples, and roi-of-tuple-of-roi is the identity on ROIs whose slices
have integer start and stop. -/
theorem roi_tuple_roundtrip (roi : Roi) (t : Tup4) (h : roiIntBounds roi) :
    tuple_to_roi (roi_to_tuple roi) = roi ∧ roi_to_tuple (tuple_to_roi t) = t := by
  obtain ⟨⟨s1, e1⟩, ⟨s2, e2⟩⟩ := roi
  obtain ⟨h1, h2, h3, h4⟩ := h
  obtain ⟨a, rfl⟩ := Option.isSome_iff_exists.mp h1
  obtain ⟨b, rfl⟩ := Option.isSome_iff_exists.mp h2
  obtain ⟨c, rfl⟩ := Option.isSome_iff_exists.mp h3
  obtain ⟨d, rfl⟩ := Option.isSome_iff_exists.mp h4
  exact ⟨rfl, rfl⟩

theorem roi_tuple_roundtrip_witness :
    roiIntBounds ((⟨some 3, some 7⟩, ⟨some 2, some 9⟩) : Roi) ∧
      tuple_to_roi (roi_to_tuple ((⟨some 3, some 7⟩, ⟨some 2, some 9⟩) : Roi)) =
        ((⟨some 3, some 7⟩, ⟨some 2, some 9⟩) : Roi) ∧
      roi_to_tuple (tuple_to_roi ((1, 5, 2, 6) : Tup4)) = ((1, 5, 2, 6) : Tup4) :=
  ⟨by decide,
    (roi_tuple_roundtrip (⟨some 3, some 7⟩, ⟨some 2, some 9⟩) (1, 5, 2, 6) (by decide)).1,
    (roi_tuple_roundtrip (⟨some 3, some 7⟩, ⟨some 2, some 9⟩) (1, 5, 2, 6) (by decide)).2⟩

/-- Embedding of roi_utils.align_rois.  The phase-cross-correlation step is an
external oracle: shift = some (dy, dx) carries the already-rounded integer
shift of the successful path, while shift = none models any exception raised
inside the try block (cropping, registration, or slice arithmetic), on which
the original bottom ROI is returned.  A non-integer (None) bound on the bottom
ROI makes the slice arithmetic raise, which the fallback branch also covers. -/
def align_rois (shift : Option (Int × Int)) (bottom_roi : Roi) : Roi :=
  match shift, bottom_roi.1.start, bottom_roi.1.stop,
      bottom_roi.2.start, bottom_roi.2.stop with
  | some (dy, dx), some ys, some ye, some xs, some xe =>
      (⟨some (ys - dy), some (ye - dy)⟩, ⟨some (xs - dx), some (xe - dx)⟩)
  | _, _, _, _, _ => bottom_roi

/-- C8: align_rois preserves the extent of the bottom ROI it adjusts: for every
integer-bounded bottom ROI and every outcome of the registration step
(successful shift or exception), the returned ROI has the same height and the
same width as the input. -/
theorem align_rois_preserves_extent (shift : Option (Int × Int)) (ys ye xs xe : Int) :
    ∃ ys' ye' xs' xe',
      align_rois shift (⟨some ys, some ye⟩, ⟨some xs, some xe⟩) =
        (⟨some ys', some ye'⟩, ⟨some xs', some xe'⟩) ∧
      ye' - ys' = ye - ys ∧ xe' - xs' = xe - xs := by
  match shift with
  | none => exact ⟨ys, ye, xs, xe, rfl, rfl, rfl⟩
  | some (dy, dx) =>
      refine ⟨ys - dy, ye - dy, xs - dx, xe - dx, rfl, by ring, by ring⟩

/-- Per-file value stored in the central JSON ROI log. -/
structure RoiLogEntry where
  top_roi : Option Tup4
  bottom_roi : Option Tup4
deriving DecidableEq, Repr

/-- Overloaded form of roi_utils._roi_to_tuple on optional ROIs: None maps to
None, an ROI maps to its 4-tuple. -/
def roi_to_tupleOpt : Option Roi → Option Tup4
  | none => none
  | some r => some (roi_to_tuple r)

/-- Parsed content of the central JSON ROI log: an ordered map from file name
to logged ROIs (JSON objects keep insertion order, like Python dicts). -/
abbrev RoiLog := List (String × RoiLogEntry)

/-- Python dict assignment on an association list: replaces the value at an
existing key in place, otherwise appends the new binding at the end. -/
def dictSet {β : Type} (m : List (String × β)) (k : String) (v : β) :
    List (String × β) :=
  if (m.find? (fun p => p.1 == k)).isSome then
    m.map (fun p => if p.1 == k then (k, v) else p)
  else m ++ [(k, v)]

/-- Python dict lookup on an association list. -/
def dictGet {β : Type} (m : List (String × β)) (k : String) : Option β :=
  (m.find? (fun p => p.1 == k)).map (fun p => p.2)

/-- Embedding of roi_utils.save_rois_to_log acting on the parsed JSON content
of an existing, well-formed log file (the claim restricts to that case, so the
JSONDecodeError fallback and the filesystem round-trip are outside the model:
the observable final state of the log is the updated dict that gets
serialized). -/
def save_rois_to_log (data : RoiLog) (base_file_name : String)
    (top_roi bottom_roi : Option Roi) : RoiLog :=
  dictSet data base_file_name ⟨roi_to_tupleOpt top_roi, roi_to_tupleOpt bottom_roi⟩

lemma find?_map_set {β : Type} (m : List (String × β)) (k : String) (v : β)
    (h : (m.find? (fun p => p.1 == k)).isSome) :
    (m.map (fun p => if p.1 == k then (k, v) else p)).find? (fun p => p.1 == k) =
      some (k, v) := by
  induction m with
  | nil => simp [List.find?] at h
  | cons p rest ih =>
      simp only [List.map_cons]
      by_cases hp : (p.1 == k) = true
      · rw [if_pos hp]
        exact List.find?_cons_of_pos _ (beq_self_eq_true k)
      · rw [if_neg hp]
        rw [List.find?_cons_of_neg (p := fun (q : String × β) => q.1 == k) _ (by simp [hp])]
        rw [List.find?_cons_of_neg (p := fun (q : String × β) => q.1 == k) _ (by simp [hp])] at h
        exact ih h

lemma find?_map_set_other {β : Type} (m : List (String × β)) (k : String) (v : β)
    (k' : String) (h : k' ≠ k) :
    (m.map (fun p => if p.1 == k then (k, v) else p)).find? (fun p => p.1 == k') =
      m.find? (fun p => p.1 == k') := by
  induction m with
  | nil => rfl
  | cons p rest ih =>
      simp only [List.map_cons]
      by_cases hp : (p.1 == k) = true
      · rw [if_pos hp]
        have hpk : p.1 = k := beq_iff_eq.mp hp
        have h1 : ¬ (((k, v) : String × β).1 == k') = true := by
          simp only [beq_iff_eq]; exact fun hh => h hh.symm
        have h2 : ¬ (p.1 == k') = true := by
          simp only [beq_iff_eq, hpk]; exact fun hh => h hh.symm
        rw [List.find?_cons_of_neg (p := fun (q : String × β) => q.1 == k') _ h1,
          List.find?_cons_of_neg (p := fun (q : String × β) => q.1 == k') _ h2]
        exact ih
      · rw [if_neg hp]
        by_cases hq : (p.1 == k') = true
        · rw [List.find?_cons_of_pos (p := fun (q : String × β) => q.1 == k') _ hq,
            List.find?_cons_of_pos (p := fun (q : String × β) => q.1 == k') _ hq]
        · rw [List.find?_cons_of_neg (p := fun (q : String × β) => q.1 == k') _ hq,
            List.find?_cons_of_neg (p := fun (q : String × β) => q.1 == k') _ hq]
          exact ih

lemma find?_append_other {β : Type} (m : List (String × β)) (k : String) (v : β)
    (k' : String) (h : k' ≠ k) :
    (m ++ [(k, v)]).find? (fun p => p.1 == k') = m.find? (fun p => p.1 == k') := by
  induction m with
  | nil =>
      simp only [List.nil_append]
      rw [List.find?_cons_of_neg (p := fun (q : String × β) => q.1 == k') _
        (by simp only [beq_iff_eq]; exact fun hh => h hh.symm)]
  | cons p rest ih =>
      simp only [List.cons_append]
      by_cases hq : (p.1 == k') = true
      · rw [List.find?_cons_of_pos (p := fun (q : String × β) => q.1 == k') _ hq,
          List.find?_cons_of_pos (p := fun (q : String × β) => q.1 == k') _ hq]
      · rw [List.find?_cons_of_neg (p := fun (q : String × β) => q.1 == k') _ hq,
          List.find?_cons_of_neg (p := fun (q : String × β) => q.1 == k') _ hq]
        exact ih

lemma find?_append_self {β : Type} (m : List (String × β)) (k : String) (v : β)
    (h : m.find? (fun p => p.1 == k) = none) :
    (m ++ [(k, v)]).find? (fun p => p.1 == k) = some (k, v) := by
  induction m with
  | nil =>
      simp only [List.nil_append]
      exact List.find?_cons_of_pos _ (beq_self_eq_true k)
  | cons p rest ih =>
      have hp : ¬ (p.1 == k) = true := by
        intro hp
        rw [List.find?_cons_of_pos (p := fun (q : String × β) => q.1 == k) _ hp] at h
        exact Option.noConfusion h
      rw [List.cons_append,
        List.find?_cons_of_neg (p := fun (q : String × β) => q.1 == k) _ hp]
      rw [List.find?_cons_of_neg (p := fun (q : String × β) => q.1 == k) _ hp] at h
      exact ih h

/-- C9: save_rois_to_log updates exactly one entry of the central ROI log: for
every parsed log content, the entry of the processed file name becomes the pair
of 4-tuple forms of the two ROIs, and the entry of every other key is
unchanged. -/
theorem save_rois_to_log_frame (data : RoiLog) (name : String)
    (top bottom : Option Roi) :
    dictGet (save_rois_to_log data name top bottom) name =
      some ⟨roi_to_tupleOpt top, roi_to_tupleOpt bottom⟩ ∧
    ∀ k, k ≠ name →
      dictGet (save_rois_to_log data name top bottom) k = dictGet data k := by
  constructor
  · unfold save_rois_to_log dictSet dictGet
    by_cases h : (data.find? (fun p => p.1 == name)).isSome
    · rw [if_pos h, find?_map_set data name _ h]
      rfl
    · rw [if_neg h]
      have hnone : data.find? (fun p => p.1 == name) = none :=
        Option.not_isSome_iff_eq_none.mp h
      rw [find?_append_self data name _ hnone]
      rfl
  · intro k hk
    unfold save_rois_to_log dictSet dictGet
    by_cases h : (data.find? (fun p => p.1 == name)).isSome
    · rw [if_pos h, find?_map_set_other data name _ k hk]
    · rw [if_neg h, find?_append_other data name _ k hk]

theorem save_rois_to_log_frame_witness :
    dictGet (save_rois_to_log [("other.ome.tif", ⟨none, none⟩)] "f1.ome.tif"
        (some (⟨some 0, some 4⟩, ⟨some 1, some 5⟩)) none) "f1.ome.tif" =
      some ⟨some (0, 4, 1, 5), none⟩ ∧
    dictGet (save_rois_to_log [("other.ome.tif", ⟨none, none⟩)] "f1.ome.tif"
        (some (⟨some 0, some 4⟩, ⟨some 1, some 5⟩)) none) "other.ome.tif" =
      dictGet [("other.ome.tif", ⟨none, none⟩)] "other.ome.tif" :=
  ⟨(save_rois_to_log_frame [("other.ome.tif", ⟨none, none⟩)] "f1.ome.tif"
      (some (⟨some 0, some 4⟩, ⟨some 1, some 5⟩)) none).1,
    (save_rois_to_log_frame [("other.ome.tif", ⟨none, none⟩)] "f1.ome.tif"
      (some (⟨some 0, some 4⟩, ⟨some 1, some 5⟩)) none).2 "other.ome.tif"
      (by decide)⟩

/-- A 3D numpy stack viewed along its frame axis: depth frames, each an
abstract 2D plane of type α; frame indices at or beyond depth carry junk. -/
@[ext]
structure NpStack (α : Type) where
  depth : ℕ
  frame : ℕ → α

/-- Embedding of the Python strided slice stack[i::n] along the frame axis:
frames i, i+n, i+2n, ... ; its length is the round-up of (depth - i) / n,
written with truncated subtraction so that i at or beyond depth yields the
empty stack, exactly as Python slicing does. -/
def sliceStep {α : Type} (s : NpStack α) (i n : ℕ) : NpStack α :=
  ⟨(s.depth - i + (n - 1)) / n, fun k => s.frame (i + k * n)⟩

/-- Embedding of core.load_and_deinterlace on the successful 3D path of the
source (the ndim check and the catch-all returning an empty dict concern
non-3D or unreadable files, which the 3D stack input type already excludes):
the returned dict maps each channel id i below num_channels to the strided
sub-stack interlaced_stack[i::num_channels]. -/
def load_and_deinterlace {α : Type} (s : NpStack α) (num_channels : ℕ) :
    List (ℕ × NpStack α) :=
  (List.range num_channels).map (fun i => (i, sliceStep s i num_channels))

/-- Python dict lookup for integer-keyed dicts. -/
def dictGetNat {β : Type} (m : List (ℕ × β)) (k : ℕ) : Option β :=
  (m.find? (fun p => p.1 == k)).map (fun p => p.2)

/-- Frame-by-frame re-interleaving of n channel stacks: frame f comes from
channel f mod n at position f div n, and the depth is the total number of
channel frames. -/
def reinterleave {α : Type} (chans : ℕ → NpStack α) (n : ℕ) : NpStack α :=
  ⟨∑ i in Finset.range n, (chans i).depth, fun f => (chans (f % n)).frame (f / n)⟩

lemma find?_map_range {β : Type} (n i : ℕ) (f : ℕ → β) (h : i < n) :
    ((List.range n).map (fun j => (j, f j))).find? (fun p => p.1 == i) =
      some (i, f i) := by
  induction n with
  | zero => exact absurd h (Nat.not_lt_zero i)
  | succ n ih =>
      rw [List.range_succ, List.map_append, List.find?_append]
      by_cases hi : i < n
      · rw [ih hi]
        simp [Option.or]
      · have hin : i = n := by omega
        subst hin
        have hnone : ((List.range i).map (fun j => (j, f j))).find?
            (fun p => p.1 == i) = none := by
          rw [List.find?_eq_none]
          intro x hx
          simp only [List.mem_map, List.mem_range] at hx
          obtain ⟨j, hj, rfl⟩ := hx
          simp only [beq_iff_eq]
          omega
        rw [hnone]
        simp [Option.or, List.find?]

lemma sliceStep_depth_lt {α : Type} (s : NpStack α) (i n k : ℕ) (hn : 1 ≤ n) :
    k < (sliceStep s i n).depth ↔ i + k * n < s.depth := by
  unfold sliceStep
  simp only
  rw [Nat.lt_iff_add_one_le, Nat.le_div_iff_mul_le (by omega : 0 < n),
    add_mul, one_mul]
  generalize k * n = m
  omega

lemma sum_sliceStep_depth {α : Type} (s : NpStack α) (n : ℕ) (hn : 1 ≤ n)
    (hdvd : n ∣ s.depth) :
    ∑ i in Finset.range n, (sliceStep s i n).depth = s.depth := by
  obtain ⟨q, hq⟩ := hdvd
  have hterm : ∀ i ∈ Finset.range n, (sliceStep s i n).depth = q := by
    intro i hi
    have hi' : i < n := Finset.mem_range.mp hi
    unfold sliceStep
    simp only [hq]
    rcases Nat.eq_zero_or_pos q with hq0 | hq0
    · subst hq0
      simp only [Nat.mul_zero, Nat.zero_sub, Nat.zero_add]
      exact Nat.div_eq_of_lt (by omega)
    · have hin : i ≤ n - 1 := by omega
      have hinq : i ≤ n * q := le_trans (by omega) (Nat.le_mul_of_pos_right n hq0)
      rw [(Nat.sub_add_comm hinq).symm, Nat.add_sub_assoc hin,
        Nat.add_comm (n * q) (n - 1 - i), mul_comm n q,
        Nat.add_mul_div_right _ _ (by omega : 0 < n),
        Nat.div_eq_of_lt (by omega : n - 1 - i < n)]
      omega
  rw [Finset.sum_congr rfl hterm, Finset.sum_const, Finset.card_range,
    smul_eq_mul, ← hq]

/-- C4: load_and_deinterlace assigns channel i the sub-stack of frames
i, i+n, i+2n, ...: for every 3D stack and every channel count n of at least 1,
the dict entry at every channel id i below n is the strided sub-stack whose
frame k is input frame i + k*n and whose frame positions k are valid exactly
when i + k*n is a valid input frame; and, additionally, when n divides the
frame count, re-interleaving the n returned channels frame by frame
reconstructs the input stack exactly. -/
theorem load_and_deinterlace_spec {α : Type} (s : NpStack α) (n : ℕ)
    (hn : 1 ≤ n) :
    (∀ i, i < n →
      dictGetNat (load_and_deinterlace s n) i = some (sliceStep s i n) ∧
      (∀ k, (sliceStep s i n).frame k = s.frame (i + k * n)) ∧
      (∀ k, k < (sliceStep s i n).depth ↔ i + k * n < s.depth)) ∧
    (n ∣ s.depth → reinterleave (fun i => sliceStep s i n) n = s) := by
  refine ⟨fun i hi => ⟨?_, fun k => rfl, fun k => sliceStep_depth_lt s i n k hn⟩,
    fun hdvd => ?_⟩
  · unfold dictGetNat load_and_deinterlace
    rw [find?_map_range n i (fun j => sliceStep s j n) hi]
    rfl
  · apply NpStack.ext
    · exact sum_sliceStep_depth s n hn hdvd
    · funext f
      show s.frame (f % n + f / n * n) = s.frame f
      rw [Nat.mod_add_div']

theorem load_and_deinterlace_spec_witness :
    dictGetNat (load_and_deinterlace (⟨5, fun f => f⟩ : NpStack ℕ) 2) 1 =
      some (sliceStep (⟨5, fun f => f⟩ : NpStack ℕ) 1 2) ∧
    reinterleave (fun i => sliceStep (⟨4, fun f => f⟩ : NpStack ℕ) i 2) 2 =
      (⟨4, fun f => f⟩ : NpStack ℕ) :=
  ⟨((load_and_deinterlace_spec (⟨5, fun f => f⟩ : NpStack ℕ) 2 (by decide)).1 1
      (by decide)).1,
    (load_and_deinterlace_spec (⟨4, fun f => f⟩ : NpStack ℕ) 2 (by decide)).2
      (by decide)⟩

/-- Embedding of the PSF selection inside core.deconvolve_channel: the provided
path is used when given and present on disk (oracle psf_exists); otherwise the
generated Gaussian PSF written to the temp dir is used. -/
def psf_path_selected (psf_path : Option String) (psf_exists : Bool)
    (generated_path : String) : String :=
  match psf_path with
  | none => generated_path
  | some p => if psf_exists then p else generated_path

namespace cudawrapper

/-- Embedding of cudawrapper.deconvolve: after the binary-installed check
(raising FileNotFoundError when the cudaDeconv binary is missing), the binary
is invoked through subprocess.run with check=True, so a nonzero exit status rc
of the binary raises CalledProcessError instead of returning; only a completed
process with returncode 0 is ever returned.  lib_installed is the filesystem
oracle for libinstall.check_lib_installed and rc the exit status of the
binary run. -/
def deconvolve (lib_installed : Bool) (rc : Int) : Except PyErr Int :=
  if !lib_installed then .error .fileNotFoundError
  else if rc ≠ 0 then .error (.calledProcessError rc)
  else .ok rc

end cudawrapper

/-- Embedding of core.deconvolve_channel.  The temporary files and the PSF
selection only feed the subprocess; readback is the stack read from the
output TIFF after a successful run.  The call to cudawrapper.deconvolve has
no surrounding try/except, so its exceptions propagate out of
deconvolve_channel.  The source keeps a returncode-is-nonzero branch that
logs and returns the deskewed stack, transcribed here, but check=True in
cudawrapper.deconvolve means that branch can only see returncode 0. -/
def deconvolve_channel {α : Type} (deskewed : α) (lib_installed : Bool)
    (rc : Int) (readback : α) : Except PyErr α :=
  match cudawrapper.deconvolve lib_installed rc with
  | .error e => .error e
  | .ok rc0 => if rc0 ≠ 0 then .ok deskewed else .ok readback

/-- C6: the claimed log-and-return-input handling is the intent of the dead
fallback branch inside deconvolve_channel, but not the behaviour of the
program: cudawrapper.deconvolve runs the cudaDeconv binary through
subprocess.run with check=True, so when the binary exits with the nonzero
return code 1 (binary installed), a CalledProcessError propagates out of
deconvolve_channel and the deskewed stack is not returned; the returncode
branch is unreachable because cudawrapper.deconvolve only ever returns
returncode 0. -/
theorem deconvolve_channel_raises :
    deconvolve_channel (0 : Int) true 1 99 =
      .error (PyErr.calledProcessError 1) ∧
    ∀ rc out : Int, cudawrapper.deconvolve true rc = .ok out → out = 0 := by
  constructor
  · rfl
  · intro rc out h
    unfold cudawrapper.deconvolve at h
    rw [if_neg (by simp)] at h
    by_cases hrc : rc ≠ 0
    · rw [if_pos hrc] at h
      exact absurd h (by simp)
    · rw [if_neg hrc] at h
      rw [not_not] at hrc
      injection h with h0
      omega

/-- Degrees to radians, as numpy np.deg2rad. -/
noncomputable def deg2rad (d : ℝ) : ℝ := d * (Real.pi / 180)

/-- Per-slice shear displacement in pixels computed by core.deskew_gpu:
shear_factor = 1 / tan(deg2rad angle), then
shift_per_slice_pixels = (z_step_um / xy_pixel_size_um) * shear_factor. -/
noncomputable def shift_per_slice_pixels
    (angle voxel_size_z voxel_size_xy : ℝ) : ℝ :=
  (voxel_size_z / voxel_size_xy) * (1 / Real.tan (deg2rad angle))

namespace OfflineDeskewer

/-- Shear factor computed by OfflineDeskewer.__init__ in deskewer.py:
cos(deg2rad sheet_angle_deg) * (z_step_um / xy_pixel_pitch_um). -/
noncomputable def shear_factor
    (sheet_angle_deg xy_pixel_pitch_um z_step_um : ℝ) : ℝ :=
  Real.cos (deg2rad sheet_angle_deg) * (z_step_um / xy_pixel_pitch_um)

end OfflineDeskewer

/-- C1 counterexample: at the identical parameter triple (sheet angle 45
degrees, z-step 1 micron, xy pitch 1 micron) the per-slice displacement of
deskew_gpu is cot(45 deg) = 1 while the shear factor of OfflineDeskewer is
cos(45 deg) = sqrt 2 / 2, so the two deskew implementations do not compute one
and the same shear displacement. -/
theorem deskew_factors_differ :
    shift_per_slice_pixels 45 1 1 ≠ OfflineDeskewer.shear_factor 45 1 1 := by
  unfold shift_per_slice_pixels OfflineDeskewer.shear_factor deg2rad
  have h45 : (45 : ℝ) * (Real.pi / 180) = Real.pi / 4 := by ring
  rw [h45, Real.tan_pi_div_four, Real.cos_pi_div_four]
  have h2 : Real.sqrt 2 < 2 := by
    nlinarith [Real.sq_sqrt (by norm_num : (0:ℝ) ≤ 2), Real.sqrt_nonneg 2]
  intro heq
  norm_num at heq
  linarith

/-- C1 amended: the two implementations realize different shear geometries
(cotangent of the sheet angle in deskew_gpu versus cosine of it in
OfflineDeskewer): for every parameter triple whose sheet angle has nonzero
sine in radians, the per-slice displacement of deskew_gpu equals the
OfflineDeskewer shear factor divided by that sine, so the two coincide exactly
when the sine is 1, not for every identical parameter triple. -/
theorem shift_eq_shear_factor_div_sin (angle z_step xy_pitch : ℝ)
    (_hsin : Real.sin (deg2rad angle) ≠ 0) :
    shift_per_slice_pixels angle z_step xy_pitch =
      OfflineDeskewer.shear_factor angle xy_pitch z_step /
        Real.sin (deg2rad angle) := by
  unfold shift_per_slice_pixels OfflineDeskewer.shear_factor
  rw [Real.tan_eq_sin_div_cos, one_div_div]
  ring

theorem shift_eq_shear_factor_div_sin_witness :
    Real.sin (deg2rad 45) ≠ 0 ∧
    shift_per_slice_pixels 45 1 1 =
      OfflineDeskewer.shear_factor 45 1 1 / Real.sin (deg2rad 45) := by
  have hrad : deg2rad 45 = Real.pi / 4 := by unfold deg2rad; ring
  have hsin : Real.sin (deg2rad 45) ≠ 0 := by
    rw [hrad, Real.sin_pi_div_four]
    positivity
  exact ⟨hsin, shift_eq_shear_factor_div_sin 45 1 1 hsin⟩

/-- Result of OfflineDeskewer.deskew_stack: the shape of the allocated 2D
output tensor and the sequence of half-open row intervals written by the
per-slice loop.  Pixel contents (the running torch.maximum projection) are
abstracted: no claim refers to them. -/
structure DeskewedProjection where
  new_height : Int
  width : ℕ
  writes : List (Int × Int)
deriving DecidableEq, Repr

/-- Embedding of OfflineDeskewer.deskew_stack on a raw stack of the given
shape; shear is self.shear_factor, modelled as a rational (every float is
one).  A non-3D input raises ValueError.  new_height is
ceil(height + shear * (depth - 1)); when it is negative (possible only for
depth 0) the torch.zeros allocation raises.  Loop iteration i writes the rows
from floor(shear * i) to floor(shear * i) + height. -/
def deskew_stack (shear : ℚ) (shape : List ℕ) : Except PyErr DeskewedProjection :=
  match shape with
  | [depth, height, width] =>
      let nh : Int := Int.ceil ((height : ℚ) + shear * ((depth : ℚ) - 1))
      if nh < 0 then .error .runtimeError
      else .ok ⟨nh, width,
        (List.range depth).map (fun (i : ℕ) =>
          (Int.floor (shear * (i : ℚ)), Int.floor (shear * (i : ℚ)) + (height : Int)))⟩
  | _ => .error (.valueError "Input raw_stack must be a 3D array.")

/-- C2 counterexample: for the (empty) 3D stack of shape (0, 0, 1) and the
non-negative shear factor 1, the height claimed for the returned array is
ceil(0 + 1 * (0 - 1)) = -1, and deskew_stack returns no array of that shape:
the allocation of the output tensor raises instead. -/
theorem deskew_stack_depth_zero_raises :
    deskew_stack 1 [0, 0, 1] = Except.error PyErr.runtimeError ∧ (0:ℚ) ≤ 1 := by
  constructor
  · simp only [deskew_stack]
    norm_num
    intro hge
    have hm : Int.ceil (-1 : ℚ) = (-1 : ℤ) := by
      exact_mod_cast Int.ceil_intCast (α := ℚ) (-1)
    rw [hm] at hge
    exact absurd hge (by norm_num)
  · norm_num

/-- C2 amended: for every 3D input stack of shape (depth, height, width) with
depth ≥ 1 and every non-negative shear factor, deskew_stack returns a 2D array
of shape (ceil(height + shear * (depth - 1)), width) and every per-slice write
interval [floor(shear * i), floor(shear * i) + height) for i < depth lies
within the bounds of that output array; for every input whose ndim is not 3 it
raises ValueError.  Only depth ≥ 1 is added to the claim: for depth = 0 and
shear greater than height the claimed height is negative and the output
allocation raises instead. -/
theorem deskew_stack_shape_and_bounds (shear : ℚ) (d h w : ℕ)
    (hs : 0 ≤ shear) (hd : 1 ≤ d) :
    (∃ out, deskew_stack shear [d, h, w] = .ok out ∧
      out.new_height = Int.ceil ((h : ℚ) + shear * ((d : ℚ) - 1)) ∧
      out.width = w ∧
      out.writes = (List.range d).map (fun (i : ℕ) =>
        (Int.floor (shear * (i : ℚ)), Int.floor (shear * (i : ℚ)) + (h : Int))) ∧
      ∀ i, i < d → 0 ≤ Int.floor (shear * (i : ℚ)) ∧
        Int.floor (shear * (i : ℚ)) + (h : Int) ≤ out.new_height) ∧
    (∀ shape : List ℕ, shape.length ≠ 3 →
      deskew_stack shear shape =
        .error (.valueError "Input raw_stack must be a 3D array.")) := by
  constructor
  · have hd1 : (0:ℚ) ≤ (d : ℚ) - 1 := by
      have : (1:ℚ) ≤ (d : ℚ) := by exact_mod_cast hd
      linarith
    have hnn : (0:ℚ) ≤ (h : ℚ) + shear * ((d : ℚ) - 1) := by
      have := mul_nonneg hs hd1
      positivity
    have hceil : ¬ (Int.ceil ((h : ℚ) + shear * ((d : ℚ) - 1)) < 0) := by
      rw [not_lt]
      exact Int.ceil_nonneg hnn
    refine ⟨⟨Int.ceil ((h : ℚ) + shear * ((d : ℚ) - 1)), w,
      (List.range d).map (fun (i : ℕ) =>
        (Int.floor (shear * (i : ℚ)), Int.floor (shear * (i : ℚ)) + (h : Int)))⟩,
      ?_, rfl, rfl, rfl, ?_⟩
    · simp only [deskew_stack]
      rw [if_neg hceil]
    · intro i hi
      constructor
      · exact Int.floor_nonneg.mpr (by positivity)
      · have h1 : ((Int.floor (shear * (i : ℚ)) : ℚ)) ≤ shear * (i : ℚ) :=
          Int.floor_le _
        have hile : (i : ℚ) ≤ (d : ℚ) - 1 := by
          have : ((i : ℚ) + 1) ≤ (d : ℚ) := by exact_mod_cast Nat.succ_le_of_lt hi
          linarith
        have h2 : shear * (i : ℚ) ≤ shear * ((d : ℚ) - 1) :=
          mul_le_mul_of_nonneg_left hile hs
        have h3 : ((h : ℚ) + shear * ((d : ℚ) - 1)) ≤
            ((Int.ceil ((h : ℚ) + shear * ((d : ℚ) - 1)) : Int) : ℚ) :=
          Int.le_ceil _
        have hq : ((Int.floor (shear * (i : ℚ)) + (h : Int) : Int) : ℚ) ≤
            ((Int.ceil ((h : ℚ) + shear * ((d : ℚ) - 1)) : Int) : ℚ) := by
          push_cast
          linarith
        exact_mod_cast hq
  · intro shape hlen
    rcases shape with _ | ⟨a, _ | ⟨b, _ | ⟨c, _ | ⟨e, rest⟩⟩⟩⟩
    · rfl
    · rfl
    · rfl
    · exact absurd rfl hlen
    · rfl

theorem deskew_stack_shape_and_bounds_witness :
    (0:ℚ) ≤ (1/2 : ℚ) ∧ (1:ℕ) ≤ 3 ∧
    ((∃ out, deskew_stack (1/2 : ℚ) [3, 4, 5] = .ok out ∧
      out.new_height = Int.ceil (((4:ℕ) : ℚ) + (1/2 : ℚ) * (((3:ℕ) : ℚ) - 1)) ∧
      out.width = 5 ∧
      out.writes = (List.range 3).map (fun (i : ℕ) =>
        (Int.floor ((1/2 : ℚ) * (i : ℚ)),
          Int.floor ((1/2 : ℚ) * (i : ℚ)) + ((4:ℕ) : Int))) ∧
      ∀ i : ℕ, i < 3 → 0 ≤ Int.floor ((1/2 : ℚ) * (i : ℚ)) ∧
        Int.floor ((1/2 : ℚ) * (i : ℚ)) + ((4:ℕ) : Int) ≤ out.new_height) ∧
    (∀ shape : List ℕ, shape.length ≠ 3 →
      deskew_stack (1/2 : ℚ) shape =
        .error (.valueError "Input raw_stack must be a 3D array."))) :=
  ⟨by norm_num, by norm_num,
    deskew_stack_shape_and_bounds (1/2) 3 4 5 (by norm_num) (by norm_num)⟩

/-- A numpy/zarr n-dimensional array: its shape, and the pixel value at each
index vector (junk outside bounds); values are integers, like the uint16
image data. -/
structure ZarrArr where
  shape : List ℕ
  data : List ℕ → Int

/-- The unsupported-shape message raised by both process_dataset and
create_mip (the interpolated shape is omitted). -/
def unsupported_shape_msg : String :=
  "Unsupported data shape. Expected 4D (ZCYX) or 5D (TZCXY)."

/-- Result of create_mip relevant to the claims: the projected 2D image and
the maximum valid timepoint index T - 1.  The contrast percentiles and the
returned lazy array are presentation values no claim refers to. -/
structure MipResult where
  mip : ℕ → ℕ → Int
  t_max : Int

/-- One step of the projection loop of create_mip: the plane at (0, 0) is
skipped (it is the initial value), every other plane is folded in with
np.maximum. -/
def maxStep (f : ℕ × ℕ → Int) (acc : Int) (p : ℕ × ℕ) : Int :=
  if p = (0, 0) then acc else max acc (f p)

/-- Iteration order of the projection loop: z outer, c inner. -/
def zcPairs (Z C : ℕ) : List (ℕ × ℕ) :=
  (List.range Z).flatMap (fun z => (List.range C).map (fun c => (z, c)))

/-- The plane-by-plane maximum loop of create_mip: z_mip starts as a copy of
the plane at (z, c) = (0, 0) and every later plane is folded in with
np.maximum. -/
def mipFold (stack : ℕ → ℕ → ℕ → ℕ → Int) (Z C : ℕ) : ℕ → ℕ → Int :=
  fun y x =>
    (zcPairs Z C).foldl (maxStep (fun p => stack p.1 p.2 y x)) (stack 0 0 y x)

/-- Embedding of viewer._mip.create_mip.  A 4D (ZCYX) input is projected
as-is with T = 1; a 5D (TZCYX) input selects timepoint t_index, reset to 0
with a warning when out of range.  Any other dimensionality raises the
unsupported-shape ValueError.  An empty Z or C axis makes the initial
stack_to_project[0, 0] access raise an index error. -/
def create_mip (arr : ZarrArr) (t_index : ℕ) : Except PyErr MipResult :=
  match arr.shape with
  | [Z, C, _Y, _X] =>
      if Z = 0 ∨ C = 0 then .error .indexError
      else .ok ⟨mipFold (fun z c y x => arr.data [z, c, y, x]) Z C, (1 : Int) - 1⟩
  | [T, Z, C, _Y, _X] =>
      let ti := if t_index ≥ T then 0 else t_index
      if Z = 0 ∨ C = 0 then .error .indexError
      else .ok ⟨mipFold (fun z c y x => arr.data [ti, z, c, y, x]) Z C, (T : Int) - 1⟩
  | _ => .error (.valueError unsupported_shape_msg)

lemma foldl_maxStep_le (f : ℕ × ℕ → Int) (l : List (ℕ × ℕ)) (a : Int) :
    a ≤ l.foldl (maxStep f) a := by
  induction l generalizing a with
  | nil => exact le_refl a
  | cons q t ih =>
      refine le_trans ?_ (ih (maxStep f a q))
      unfold maxStep
      split
      · exact le_refl a
      · exact le_max_left a (f q)

lemma foldl_maxStep_ub (f : ℕ × ℕ → Int) (l : List (ℕ × ℕ)) (a : Int) :
    ∀ p ∈ l, p ≠ (0, 0) → f p ≤ l.foldl (maxStep f) a := by
  induction l generalizing a with
  | nil => intro p hp; exact absurd hp (List.not_mem_nil p)
  | cons q t ih =>
      intro p hp hne
      rcases List.mem_cons.mp hp with rfl | hmem
      · refine le_trans ?_ (foldl_maxStep_le f t (maxStep f a p))
        unfold maxStep
        rw [if_neg hne]
        exact le_max_right a (f p)
      · exact ih (maxStep f a q) p hmem hne

lemma foldl_maxStep_attained (f : ℕ × ℕ → Int) (l : List (ℕ × ℕ)) (a : Int) :
    l.foldl (maxStep f) a = a ∨
      ∃ p ∈ l, p ≠ (0, 0) ∧ l.foldl (maxStep f) a = f p := by
  induction l generalizing a with
  | nil => exact Or.inl rfl
  | cons q t ih =>
      have hstep : t.foldl (maxStep f) (maxStep f a q) = (q :: t).foldl (maxStep f) a := rfl
      rcases ih (maxStep f a q) with heq | ⟨p, hp, hne, heq⟩
      · by_cases hq : q = (0, 0)
        · left
          rw [← hstep, heq]
          unfold maxStep
          rw [if_pos hq]
        · rcases max_choice a (f q) with hmax | hmax
          · left
            rw [← hstep, heq]
            unfold maxStep
            rw [if_neg hq]
            exact hmax
          · right
            refine ⟨q, List.mem_cons_self q t, hq, ?_⟩
            rw [← hstep, heq]
            unfold maxStep
            rw [if_neg hq]
            exact hmax
      · exact Or.inr ⟨p, List.mem_cons_of_mem q hp, hne, by rw [← hstep, heq]⟩

lemma mem_zcPairs (Z C z c : ℕ) : (z, c) ∈ zcPairs Z C ↔ z < Z ∧ c < C := by
  unfold zcPairs
  simp [List.mem_flatMap, List.mem_map, List.mem_range]

lemma mipFold_spec (stack : ℕ → ℕ → ℕ → ℕ → Int) (Z C : ℕ)
    (hZ : 1 ≤ Z) (hC : 1 ≤ C) (y x : ℕ) :
    (∀ z, z < Z → ∀ c, c < C → stack z c y x ≤ mipFold stack Z C y x) ∧
    (∃ z, z < Z ∧ ∃ c, c < C ∧ mipFold stack Z C y x = stack z c y x) := by
  constructor
  · intro z hz c hc
    by_cases hzc : ((z, c) : ℕ × ℕ) = (0, 0)
    · rw [Prod.mk.injEq] at hzc
      obtain ⟨rfl, rfl⟩ := hzc
      exact foldl_maxStep_le _ _ _
    · exact foldl_maxStep_ub (fun p => stack p.1 p.2 y x) (zcPairs Z C) _
        (z, c) ((mem_zcPairs Z C z c).mpr ⟨hz, hc⟩) hzc
  · rcases foldl_maxStep_attained (fun p => stack p.1 p.2 y x) (zcPairs Z C)
        (stack 0 0 y x) with heq | ⟨p, hp, _, heq⟩
    · exact ⟨0, hZ, 0, hC, heq⟩
    · obtain ⟨z, c⟩ := p
      have hm := (mem_zcPairs Z C z c).mp hp
      exact ⟨z, hm.1, c, hm.2, heq⟩

/-- C3: create_mip computes the Maximum Intensity Projection of the selected
timepoint: for every 4D (ZCYX) or 5D (TZCYX) input with at least one plane
and every in-range timepoint index, the returned 2D array holds at every
pixel the per-pixel maximum of that pixel over all (z, c) planes of the
selected timepoint (the Z and C plane axes are the collapsed axis of the
projection). -/
theorem create_mip_is_mip (T Z C Y X : ℕ) (d : List ℕ → Int) (t_index : ℕ)
    (hZ : 1 ≤ Z) (hC : 1 ≤ C) (hT : t_index < T) :
    (∃ m, create_mip ⟨[Z, C, Y, X], d⟩ t_index = .ok m ∧
      ∀ y x, (∀ z, z < Z → ∀ c, c < C → d [z, c, y, x] ≤ m.mip y x) ∧
        (∃ z, z < Z ∧ ∃ c, c < C ∧ m.mip y x = d [z, c, y, x])) ∧
    (∃ m, create_mip ⟨[T, Z, C, Y, X], d⟩ t_index = .ok m ∧
      ∀ y x, (∀ z, z < Z → ∀ c, c < C → d [t_index, z, c, y, x] ≤ m.mip y x) ∧
        (∃ z, z < Z ∧ ∃ c, c < C ∧ m.mip y x = d [t_index, z, c, y, x])) := by
  have hcond : ¬ (Z = 0 ∨ C = 0) := by omega
  constructor
  · refine ⟨⟨mipFold (fun z c y x => d [z, c, y, x]) Z C, (1 : Int) - 1⟩, ?_, ?_⟩
    · simp only [create_mip]
      rw [if_neg hcond]
    · intro y x
      exact mipFold_spec (fun z c y x => d [z, c, y, x]) Z C hZ hC y x
  · have hge : ¬ (t_index ≥ T) := by omega
    refine ⟨⟨mipFold (fun z c y x => d [t_index, z, c, y, x]) Z C,
      (T : Int) - 1⟩, ?_, ?_⟩
    · simp only [create_mip]
      rw [if_neg hge, if_neg hcond]
    · intro y x
      exact mipFold_spec (fun z c y x => d [t_index, z, c, y, x]) Z C hZ hC y x

theorem create_mip_is_mip_witness :
    (1 : ℕ) ≤ 1 ∧ (0 : ℕ) < 1 ∧
    ((∃ m, create_mip ⟨[1, 1, 2, 2], fun _ => 5⟩ 0 = .ok m ∧
      ∀ y x, (∀ z, z < 1 → ∀ c, c < 1 →
          (fun (_ : List ℕ) => (5 : Int)) [z, c, y, x] ≤ m.mip y x) ∧
        (∃ z, z < 1 ∧ ∃ c, c < 1 ∧
          m.mip y x = (fun (_ : List ℕ) => (5 : Int)) [z, c, y, x])) ∧
    (∃ m, create_mip ⟨[1, 1, 1, 2, 2], fun _ => 5⟩ 0 = .ok m ∧
      ∀ y x, (∀ z, z < 1 → ∀ c, c < 1 →
          (fun (_ : List ℕ) => (5 : Int)) [0, z, c, y, x] ≤ m.mip y x) ∧
        (∃ z, z < 1 ∧ ∃ c, c < 1 ∧
          m.mip y x = (fun (_ : List ℕ) => (5 : Int)) [0, z, c, y, x]))) :=
  ⟨le_refl 1, Nat.zero_lt_one,
    create_mip_is_mip 1 1 1 2 2 (fun _ => 5) 0 (le_refl 1) (le_refl 1)
      Nat.zero_lt_one⟩

/-- The two output formats supported by the streaming pipeline. -/
inductive OutputFormat where
  | ZARR
  | TIFF_SERIES
deriving DecidableEq, Repr

/-- Filesystem effects of process_dataset, in program order.  openInput is the
read-only opening of the input OME-TIF; every other effect touches the output
directory. -/
inductive Effect where
  | openInput
  | deleteExistingZarr
  | createZarrStore (shape : ℕ × ℕ × ℕ × ℕ × ℕ)
  | writeZarrPlane (t z outId : ℕ)
  | writeTiffFile (t c : ℕ)
deriving DecidableEq, Repr

def even_channels_msg : String :=
  "Expected an even number of channels (pairs of cameras)."

def empty_channels_msg : String := "channels_to_output list cannot be empty."

def need_top_msg : String :=
  "Channels requiring Top ROI selected, but top_roi is None."

def need_bottom_msg : String :=
  "Channels requiring Bottom ROI selected, but bottom_roi is None."

def roi_mismatch_msg : String := "ROI shapes do not match."

/-- Length of the Python slice a[start:stop] (step 1) of an axis of length L:
each bound defaults to the axis end, wraps once from the end when negative,
and is clamped to [0, L]. -/
def sliceLen (s : PySlice) (L : ℕ) : ℕ :=
  let lo : Int := match s.start with
    | none => 0
    | some a => if a < 0 then max (a + (L : Int)) 0 else min a (L : Int)
  let hi : Int := match s.stop with
    | none => (L : Int)
    | some b => if b < 0 then max (b + (L : Int)) 0 else min b (L : Int)
  (hi - lo).toNat

/-- Shape of dummy_plane[roi[0], roi[1]] for a (Y, X) plane. -/
def crop_shape (roi : Roi) (Y X : ℕ) : ℕ × ℕ := (sliceLen roi.1 Y, sliceLen roi.2 X)

/-- Embedding of core._get_crop_shape: shape of the cropped dummy plane, or
None when the ROI is None. -/
def get_crop_shape (roi : Option Roi) (Y X : ℕ) : Option (ℕ × ℕ) :=
  roi.map (fun r => crop_shape r Y X)

/-- Zarr plane-write effects of one (t, z, excitation) inner iteration: one
write per selected output id out_base + 0 .. out_base + 3, in source order. -/
def zarr_writes_for (channels : List ℕ) (t z exc : ℕ) : List Effect :=
  ((List.range 4).filter (fun j => channels.contains (exc * 4 + j))).map
    (fun j => Effect.writeZarrPlane t z (exc * 4 + j))

/-- Embedding of core.process_dataset after the shape dispatch, with the input
already opened (first effect) and its dimensions extracted.  zarr_exists is
the filesystem oracle for the pre-existing output store.  Pixel contents of
the written planes are abstracted into write effects; the validation chain,
its error messages and the effect ordering follow the source. -/
def process_dataset_validated (T Z C Y X : ℕ) (top_roi bottom_roi : Option Roi)
    (output_format : OutputFormat) (rotate_90 : Bool)
    (channels_to_output : Option (List ℕ)) (zarr_exists : Bool) :
    List Effect × Except PyErr ℕ :=
  if C % 2 ≠ 0 then
    ([.openInput], .error (.valueError even_channels_msg))
  else
    let n_excitations := C / 2
    let channels := channels_to_output.getD (List.range (n_excitations * 4))
    if channels.isEmpty then
      ([.openInput], .error (.valueError empty_channels_msg))
    else
      let need_top := channels.any (fun ch => ch % 4 == 1 || ch % 4 == 2)
      let need_bottom := channels.any (fun ch => ch % 4 == 0 || ch % 4 == 3)
      if need_top && top_roi.isNone then
        ([.openInput], .error (.valueError need_top_msg))
      else if need_bottom && bottom_roi.isNone then
        ([.openInput], .error (.valueError need_bottom_msg))
      else
        let top_shape := get_crop_shape top_roi Y X
        let bottom_shape := get_crop_shape bottom_roi Y X
        if top_shape.isSome ∧ bottom_shape.isSome ∧ top_shape ≠ bottom_shape then
          ([.openInput], .error (.valueError roi_mismatch_msg))
        else
          let yx := (top_shape.or bottom_shape).getD (0, 0)
          let Y_out := if rotate_90 then yx.2 else yx.1
          let X_out := if rotate_90 then yx.1 else yx.2
          let C_new := channels.length
          match output_format with
          | .ZARR =>
              ((if zarr_exists then [Effect.openInput, Effect.deleteExistingZarr]
                else [Effect.openInput]) ++
                [Effect.createZarrStore (T, Z, C_new, Y_out, X_out)] ++
                ((List.range T).flatMap (fun t => (List.range Z).flatMap (fun z =>
                  (List.range n_excitations).flatMap (fun exc =>
                    zarr_writes_for channels t z exc)))),
                .ok T)
          | .TIFF_SERIES =>
              ([Effect.openInput] ++
                ((List.range T).flatMap (fun t =>
                  channels.map (fun c => Effect.writeTiffFile t c))),
                .ok T)

/-- Embedding of core.process_dataset: the shape dispatch of the opened input
(4D assumes T = 1, 5D reads T from the shape, anything else raises the
unsupported-shape ValueError) followed by the validated pipeline. -/
def process_dataset (shape : List ℕ) (top_roi bottom_roi : Option Roi)
    (output_format : OutputFormat) (rotate_90 : Bool)
    (channels_to_output : Option (List ℕ)) (zarr_exists : Bool) :
    List Effect × Except PyErr ℕ :=
  match shape with
  | [Z, C, Y, X] =>
      process_dataset_validated 1 Z C Y X top_roi bottom_roi output_format
        rotate_90 channels_to_output zarr_exists
  | [T, Z, C, Y, X] =>
      process_dataset_validated T Z C Y X top_roi bottom_roi output_format
        rotate_90 channels_to_output zarr_exists
  | _ => ([.openInput], .error (.valueError unsupported_shape_msg))

/-- The channel-axis length of a 4D (ZCYX) or 5D (TZCYX) shape. -/
def channelCount : List ℕ → ℕ
  | [_, c, _, _] => c
  | [_, _, c, _, _] => c
  | _ => 0

/-- C10: for every 4D or 5D input whose channel count C is odd,
process_dataset raises the even-channel ValueError having only read the
input: the effect trace holds no store creation, plane or file write, and no
deletion, so the output directory is untouched. -/
theorem process_dataset_odd_channels (shape : List ℕ) (top bottom : Option Roi)
    (fmt : OutputFormat) (rot : Bool) (chans : Option (List ℕ)) (zE : Bool)
    (hlen : shape.length = 4 ∨ shape.length = 5)
    (hodd : channelCount shape % 2 = 1) :
    process_dataset shape top bottom fmt rot chans zE =
      ([Effect.openInput], .error (.valueError even_channels_msg)) ∧
    ∀ e ∈ (process_dataset shape top bottom fmt rot chans zE).1,
      e = Effect.openInput := by
  have hres : process_dataset shape top bottom fmt rot chans zE =
      ([Effect.openInput], .error (.valueError even_channels_msg)) := by
    rcases shape with _ | ⟨a, _ | ⟨b, _ | ⟨c, _ | ⟨d, _ | ⟨e, rest⟩⟩⟩⟩⟩
    · simp at hlen
    · simp at hlen
    · simp at hlen
    · simp at hlen
    · simp only [channelCount] at hodd
      simp only [process_dataset, process_dataset_validated]
      rw [if_pos (by omega : ¬ b % 2 = 0)]
    · rcases rest with _ | ⟨f, rest2⟩
      · simp only [channelCount] at hodd
        simp only [process_dataset, process_dataset_validated]
        rw [if_pos (by omega : ¬ c % 2 = 0)]
      · simp at hlen
  refine ⟨hres, ?_⟩
  rw [hres]
  intro e he
  exact List.mem_singleton.mp he

theorem process_dataset_odd_channels_witness :
    (([1, 3, 4, 4] : List ℕ).length = 4 ∨ ([1, 3, 4, 4] : List ℕ).length = 5) ∧
    channelCount [1, 3, 4, 4] % 2 = 1 ∧
    (process_dataset [1, 3, 4, 4] none none OutputFormat.ZARR false none false =
      ([Effect.openInput], .error (.valueError even_channels_msg)) ∧
    ∀ e ∈ (process_dataset [1, 3, 4, 4] none none OutputFormat.ZARR false none
        false).1, e = Effect.openInput) :=
  ⟨Or.inl rfl, rfl,
    process_dataset_odd_channels [1, 3, 4, 4] none none OutputFormat.ZARR false
      none false (Or.inl rfl) rfl⟩

lemma validated_ne_unsupported (T Z C Y X : ℕ) (top bottom : Option Roi)
    (fmt : OutputFormat) (rot : Bool) (chans : Option (List ℕ)) (zE : Bool) :
    (process_dataset_validated T Z C Y X top bottom fmt rot chans zE).2 ≠
      .error (.valueError unsupported_shape_msg) := by
  unfold process_dataset_validated
  dsimp only
  split
  · simp [even_channels_msg, unsupported_shape_msg]
  · split
    · simp [empty_channels_msg, unsupported_shape_msg]
    · split
      · simp [need_top_msg, unsupported_shape_msg]
      · split
        · simp [need_bottom_msg, unsupported_shape_msg]
        · split
          · simp [roi_mismatch_msg, unsupported_shape_msg]
          · split
            · simp
            · simp

lemma create_mip_45_ne_unsupported (arr : ZarrArr) (t_index : ℕ)
    (hlen : arr.shape.length = 4 ∨ arr.shape.length = 5) :
    create_mip arr t_index ≠ .error (.valueError unsupported_shape_msg) := by
  obtain ⟨shape, d⟩ := arr
  rcases shape with _ | ⟨a, _ | ⟨b, _ | ⟨c, _ | ⟨d4, _ | ⟨e5, rest⟩⟩⟩⟩⟩
  · simp at hlen
  · simp at hlen
  · simp at hlen
  · simp at hlen
  · intro hE
    simp only [create_mip] at hE
    split at hE <;> simp at hE
  · rcases rest with _ | ⟨f, rest2⟩
    · intro hE
      simp only [create_mip] at hE
      split at hE <;> simp at hE
    · simp at hlen

/-- C5 amended: process_dataset and create_mip accept exactly the 4D and 5D
stacks, not 3D ones: for every input shape, each function raises the
unsupported-shape ValueError precisely when the dimensionality is neither 4
nor 5; in particular every 3D stack is rejected with that error. -/
theorem unsupported_shape_iff (shape : List ℕ) (top bottom : Option Roi)
    (fmt : OutputFormat) (rot : Bool) (chans : Option (List ℕ)) (zE : Bool)
    (d : List ℕ → Int) (t_index : ℕ) :
    ((process_dataset shape top bottom fmt rot chans zE).2 =
        .error (.valueError unsupported_shape_msg) ↔
      ¬ (shape.length = 4 ∨ shape.length = 5)) ∧
    (create_mip ⟨shape, d⟩ t_index = .error (.valueError unsupported_shape_msg) ↔
      ¬ (shape.length = 4 ∨ shape.length = 5)) := by
  constructor
  · constructor
    · intro hE hlen
      rcases shape with _ | ⟨a, _ | ⟨b, _ | ⟨c, _ | ⟨d4, _ | ⟨e5, rest⟩⟩⟩⟩⟩
      · simp at hlen
      · simp at hlen
      · simp at hlen
      · simp at hlen
      · simp only [process_dataset] at hE
        exact validated_ne_unsupported 1 a b c d4 top bottom fmt rot chans zE hE
      · rcases rest with _ | ⟨f, rest2⟩
        · simp only [process_dataset] at hE
          exact validated_ne_unsupported a b c d4 e5 top bottom fmt rot chans zE hE
        · simp at hlen
    · intro hlen
      rcases shape with _ | ⟨a, _ | ⟨b, _ | ⟨c, _ | ⟨d4, _ | ⟨e5, rest⟩⟩⟩⟩⟩
      · rfl
      · rfl
      · rfl
      · rfl
      · exact absurd (Or.inl rfl) hlen
      · rcases rest with _ | ⟨f, rest2⟩
        · exact absurd (Or.inr rfl) hlen
        · rfl
  · constructor
    · intro hE hlen
      exact create_mip_45_ne_unsupported ⟨shape, d⟩ t_index hlen hE
    · intro hlen
      rcases shape with _ | ⟨a, _ | ⟨b, _ | ⟨c, _ | ⟨d4, _ | ⟨e5, rest⟩⟩⟩⟩⟩
      · rfl
      · rfl
      · rfl
      · rfl
      · exact absurd (Or.inl rfl) hlen
      · rcases rest with _ | ⟨f, rest2⟩
        · exact absurd (Or.inr rfl) hlen
        · rfl

/-- C5 counterexample: both process_dataset and create_mip reject the 3D
stack of shape (2, 3, 4) with the unsupported-shape ValueError rather than
accepting it. -/
theorem three_d_input_rejected :
    process_dataset [2, 3, 4] none none OutputFormat.ZARR false none false =
      ([Effect.openInput], .error (.valueError unsupported_shape_msg)) ∧
    create_mip ⟨[2, 3, 4], fun _ => 0⟩ 0 =
      .error (.valueError unsupported_shape_msg) :=
  ⟨rfl, rfl⟩

end Opym
